import Mathlib

/-!
Verification development for the paper acquisition and ranking pipeline
(retrieval: src/retrieval/retriever.py; PDF management:
src/pdf_management/{cache_manager,downloader,pdf_processor}.py).

The Python code is shallowly embedded: Python dicts used as string-keyed
maps become association lists (insertion order preserved, like Python
dicts), machine-independent values keep their types (strings, naturals,
integers for timestamps), BM25 scores live in the real numbers, and all
external effects (HTTP fetches, PDF parsing, the md5 hash, LLM calls)
are oracles passed in explicitly.  Ghost counters (network requests,
parser invocations, sleeps) record the observable effects the claims
talk about without changing any behaviour.
-/

/-! ## Association lists modelling Python dicts

Python dicts preserve insertion order; assignment to an existing key
overwrites in place, and del removes the single entry with that key.
-/

/-- First value stored under key `k`, like `d[k]` / `d.get(k)`. -/
def dictLookup {α : Type} (k : String) : List (String × α) → Option α
  | [] => none
  | e :: es => if e.1 = k then some e.2 else dictLookup k es

/-- Python `d[k] = v`: overwrite in place if present, else append. -/
def dictInsert {α : Type} (k : String) (v : α) : List (String × α) → List (String × α)
  | [] => [(k, v)]
  | e :: es => if e.1 = k then (k, v) :: es else e :: dictInsert k v es

/-- Python `del d[k]` (on a dict, which never has duplicate keys). -/
def dictErase {α : Type} (k : String) : List (String × α) → List (String × α)
  | [] => []
  | e :: es => if e.1 = k then dictErase k es else e :: dictErase k es

theorem dictLookup_insert_self {α : Type} (k : String) (v : α) (l : List (String × α)) :
    dictLookup k (dictInsert k v l) = some v := by
  induction l with
  | nil => simp [dictInsert, dictLookup]
  | cons e es ih =>
    by_cases h : e.1 = k
    · simp [dictInsert, dictLookup, h]
    · simp [dictInsert, dictLookup, h, ih]

theorem dictLookup_insert_ne {α : Type} (k k' : String) (v : α) (l : List (String × α))
    (h : k' ≠ k) : dictLookup k' (dictInsert k v l) = dictLookup k' l := by
  induction l with
  | nil => simp [dictInsert, dictLookup, Ne.symm h]
  | cons e es ih =>
    by_cases he : e.1 = k
    · simp [dictInsert, dictLookup, he, Ne.symm h]
    · simp [dictInsert, dictLookup, he, ih]

theorem mem_dictErase {α : Type} {k : String} {l : List (String × α)} {e : String × α} :
    e ∈ dictErase k l ↔ e ∈ l ∧ e.1 ≠ k := by
  induction l with
  | nil => simp [dictErase]
  | cons f fs ih =>
    by_cases h : f.1 = k
    · rw [dictErase, if_pos h]
      rw [ih]
      constructor
      · exact fun ⟨h1, h2⟩ => ⟨List.mem_cons_of_mem f h1, h2⟩
      · rintro ⟨h1, h2⟩
        rcases List.mem_cons.1 h1 with h1 | h1
        · subst h1; exact absurd h h2
        · exact ⟨h1, h2⟩
    · rw [dictErase, if_neg h]
      constructor
      · intro hm
        rcases List.mem_cons.1 hm with h1 | h1
        · subst h1; exact ⟨List.mem_cons_self e fs, h⟩
        · have := ih.1 h1
          exact ⟨List.mem_cons_of_mem f this.1, this.2⟩
      · rintro ⟨h1, h2⟩
        rcases List.mem_cons.1 h1 with h1 | h1
        · subst h1; exact List.mem_cons_self e _
        · exact List.mem_cons_of_mem f (ih.2 ⟨h1, h2⟩)

theorem dictLookup_erase_self {α : Type} (k : String) (l : List (String × α)) :
    dictLookup k (dictErase k l) = none := by
  induction l with
  | nil => rfl
  | cons e es ih =>
    by_cases h : e.1 = k
    · simpa [dictErase, h] using ih
    · simpa [dictErase, h, dictLookup] using ih

theorem dictLookup_erase_ne {α : Type} (k p : String) (l : List (String × α))
    (h : p ≠ k) : dictLookup p (dictErase k l) = dictLookup p l := by
  induction l with
  | nil => rfl
  | cons e es ih =>
    by_cases he : e.1 = k
    · simpa [dictErase, he, dictLookup, Ne.symm h] using ih
    · simp [dictErase, he, dictLookup, ih]

theorem dictLookup_none_erase {α : Type} (k p : String) (l : List (String × α))
    (h : dictLookup p l = none) : dictLookup p (dictErase k l) = none := by
  by_cases hpk : p = k
  · rw [hpk]; exact dictLookup_erase_self k l
  · rw [dictLookup_erase_ne k p l hpk]; exact h

/-- Map over the values of an association list, keeping keys. -/
def dictMapVal {α β : Type} (f : α → β) (l : List (String × α)) : List (String × β) :=
  l.map (fun e => (e.1, f e.2))

theorem dictLookup_dictMapVal {α β : Type} (f : α → β) (k : String)
    (l : List (String × α)) :
    dictLookup k (dictMapVal f l) = (dictLookup k l).map f := by
  induction l with
  | nil => rfl
  | cons e es ih =>
    by_cases h : e.1 = k
    · simp [dictMapVal, dictLookup, h]
    · simp only [dictMapVal, List.map, dictLookup, h, if_false]
      exact ih

/-- A dict never binds one key to two values once keys are distinct. -/
theorem dict_key_unique {α : Type} {l : List (String × α)}
    (hnd : (l.map Prod.fst).Nodup) {k : String} {v w : α}
    (hv : (k, v) ∈ l) (hw : (k, w) ∈ l) : v = w := by
  induction l with
  | nil => cases hv
  | cons e es ih =>
    rw [List.map_cons, List.nodup_cons] at hnd
    rcases List.mem_cons.1 hv with hv1 | hv1 <;> rcases List.mem_cons.1 hw with hw1 | hw1
    · have hvw := hv1.trans hw1.symm
      injection hvw with h1 h2
    · exfalso
      have hk : k ∈ es.map Prod.fst := List.mem_map.2 ⟨(k, w), hw1, rfl⟩
      rw [← hv1] at hnd
      exact hnd.1 hk
    · exfalso
      have hk : k ∈ es.map Prod.fst := List.mem_map.2 ⟨(k, v), hv1, rfl⟩
      rw [← hw1] at hnd
      exact hnd.1 hk
    · exact ih hnd.2 hv1 hw1

/-! ## Retrieval model (src/retrieval/retriever.py)

A paper candidate is a Python dict produced by a source adapter; the
retriever reads the keys "url", "title", "abstract" with p.get, and
writes "score_bm25".  Missing keys are `none`.
-/

/-- One candidate record as seen by the Retriever. -/
structure SPaper where
  url : Option String
  title : Option String
  abstract : Option String
  score_bm25 : Option ℝ

/-- Key getter for Retriever._deduplicate(papers, "url"). -/
def keyUrl (p : SPaper) : Option String := p.url

/-- Key getter for Retriever._deduplicate(papers, "title"). -/
def keyTitle (p : SPaper) : Option String := p.title

/-- Worker for Retriever._deduplicate (lines 50-58): keeps a paper iff
its key value is truthy (present and non-empty) and not seen before. -/
def dedupGo (g : SPaper → Option String) (seen : List String) :
    List SPaper → List SPaper
  | [] => []
  | p :: ps =>
    match g p with
    | none => dedupGo g seen ps
    | some v =>
      if v = "" ∨ v ∈ seen then dedupGo g seen ps
      else p :: dedupGo g (v :: seen) ps

/-- Retriever._deduplicate: first-occurrence dedup on a key, dropping
records whose key is missing or empty (Python falsy check). -/
def dedup (g : SPaper → Option String) (papers : List SPaper) : List SPaper :=
  dedupGo g [] papers

theorem dedupGo_sublist (g : SPaper → Option String) (seen : List String)
    (l : List SPaper) : (dedupGo g seen l).Sublist l := by
  induction l generalizing seen with
  | nil => simp [dedupGo]
  | cons p ps ih =>
    cases hg : g p with
    | none =>
      simp only [dedupGo, hg]
      exact (ih seen).cons p
    | some v =>
      simp only [dedupGo, hg]
      by_cases hv : v = "" ∨ v ∈ seen
      · rw [if_pos hv]; exact (ih seen).cons p
      · rw [if_neg hv]; exact (ih (v :: seen)).cons₂ p

theorem dedup_sublist (g : SPaper → Option String) (l : List SPaper) :
    (dedup g l).Sublist l := dedupGo_sublist g [] l

theorem mem_dedupGo (g : SPaper → Option String) {seen : List String}
    {l : List SPaper} {p : SPaper} (hp : p ∈ dedupGo g seen l) :
    ∃ v, g p = some v ∧ v ≠ "" ∧ v ∉ seen := by
  induction l generalizing seen with
  | nil => cases hp
  | cons q qs ih =>
    cases hg : g q with
    | none =>
      simp only [dedupGo, hg] at hp
      exact ih hp
    | some v =>
      simp only [dedupGo, hg] at hp
      by_cases hv : v = "" ∨ v ∈ seen
      · rw [if_pos hv] at hp; exact ih hp
      · rw [if_neg hv] at hp
        push_neg at hv
        rcases List.mem_cons.1 hp with h1 | h1
        · subst h1; exact ⟨v, hg, hv.1, hv.2⟩
        · obtain ⟨w, hw, hw1, hw2⟩ := ih h1
          exact ⟨w, hw, hw1, fun hmem => hw2 (List.mem_cons_of_mem v hmem)⟩

/-- Every survivor of a dedup pass has a present, non-empty key value. -/
theorem mem_dedup_key_nonempty (g : SPaper → Option String) {l : List SPaper}
    {p : SPaper} (hp : p ∈ dedup g l) : ∃ v, g p = some v ∧ v ≠ "" := by
  obtain ⟨v, h1, h2, _⟩ := mem_dedupGo g hp
  exact ⟨v, h1, h2⟩

theorem dedupGo_pairwise (g : SPaper → Option String) (seen : List String)
    (l : List SPaper) :
    (dedupGo g seen l).Pairwise (fun a b => g a ≠ g b) := by
  induction l generalizing seen with
  | nil => simp [dedupGo]
  | cons p ps ih =>
    cases hg : g p with
    | none =>
      simp only [dedupGo, hg]
      exact ih seen
    | some v =>
      simp only [dedupGo, hg]
      by_cases hv : v = "" ∨ v ∈ seen
      · rw [if_pos hv]; exact ih seen
      · rw [if_neg hv]
        refine List.pairwise_cons.2 ⟨?_, ih (v :: seen)⟩
        intro q hq
        obtain ⟨w, hw, _, hw2⟩ := mem_dedupGo g hq
        rw [hg, hw]
        intro hcontra
        injection hcontra with hvw
        exact hw2 (hvw ▸ List.mem_cons_self v seen)

/-- No two survivors of a dedup pass share a key value. -/
theorem dedup_pairwise_key_ne (g : SPaper → Option String) (l : List SPaper) :
    (dedup g l).Pairwise (fun a b => g a ≠ g b) := dedupGo_pairwise g [] l

theorem dedupGo_find? (g : SPaper → Option String) {v : String} (hv : v ≠ "")
    {seen : List String} (hseen : v ∉ seen) (l : List SPaper) :
    (dedupGo g seen l).find? (fun p => decide (g p = some v)) =
      l.find? (fun p => decide (g p = some v)) := by
  induction l generalizing seen with
  | nil => simp [dedupGo]
  | cons p ps ih =>
    cases hg : g p with
    | none =>
      simp only [dedupGo, hg]
      rw [List.find?_cons]
      have : (decide (g p = some v)) = false := by simp [hg]
      rw [this, ih hseen]
    | some w =>
      simp only [dedupGo, hg]
      by_cases hw : w = "" ∨ w ∈ seen
      · rw [if_pos hw]
        rw [List.find?_cons]
        have hwv : w ≠ v := by
          intro h
          subst h
          rcases hw with h | h
          · exact hv h
          · exact hseen h
        have : (decide (g p = some v)) = false := by simp [hg, hwv]
        rw [this, ih hseen]
      · rw [if_neg hw]
        rw [List.find?_cons, List.find?_cons]
        by_cases hwv : w = v
        · subst hwv
          have : (decide (g p = some w)) = true := by simp [hg]
          rw [this]
        · have : (decide (g p = some v)) = false := by simp [hg, hwv]
          rw [this]
          have hv' : v ∉ w :: seen := by
            intro h
            rcases List.mem_cons.1 h with h | h
            · exact hwv h.symm
            · exact hseen h
          exact ih hv'

/-- The record a dedup pass keeps for key value v is exactly the first
record of the input with that key value. -/
theorem dedup_find?_eq (g : SPaper → Option String) {v : String} (hv : v ≠ "")
    (l : List SPaper) :
    (dedup g l).find? (fun p => decide (g p = some v)) =
      l.find? (fun p => decide (g p = some v)) :=
  dedupGo_find? g hv (List.not_mem_nil v) l

/-! ## Tokenisation (retriever.py lines 105-109 and 131-135)

The code lowercases the text and splits on single spaces:
(p.get("title", "") + " " + p.get("abstract", "")).lower() and
doc.split(" ").  Python str.split(" ") keeps empty fields, and
"".split(" ") is [""].  Tokens are kept as character lists so that the
kernel can evaluate them on literals. -/

/-- ASCII lowercasing of one character (Python str.lower on the ASCII
strings the claims exercise). -/
def lowerChar (c : Char) : Char :=
  if 'A' ≤ c ∧ c ≤ 'Z' then Char.ofNat (c.toNat + 32) else c

/-- Python s.split(" "): split on each single space, keeping empties. -/
def splitSpaces : List Char → List (List Char)
  | [] => [[]]
  | c :: cs =>
    match splitSpaces cs with
    | [] => [[]]
    | w :: ws => if c = ' ' then [] :: w :: ws else (c :: w) :: ws

/-- s.lower().split(" ") as used for both documents and queries. -/
def pyTokens (s : String) : List (List Char) :=
  splitSpaces (s.data.map lowerChar)

/-- The document text the Retriever scores: title + " " + abstract with
missing fields defaulted to "". -/
def docText (p : SPaper) : String :=
  p.title.getD "" ++ " " ++ p.abstract.getD ""

/-- Tokens of one candidate document (retriever.py line 105-106). -/
def docTokens (p : SPaper) : List (List Char) := pyTokens (docText p)

/-! ## BM25Okapi (rank_bm25 package, the library retriever.py calls)

rank_bm25.BM25Okapi with the default parameters k1 = 1.5, b = 0.75,
epsilon = 0.25, modelled over the reals:
  idf(w)  = log(N - nd(w) + 0.5) - log(nd(w) + 0.5), where nd(w) is the
            number of documents containing w;
  words whose raw idf is negative are floored to
            epsilon * average(raw idf over the vocabulary);
  score(D) = sum over query tokens q of
            idf(q) * f(q,D)*(k1+1) / (f(q,D) + k1*(1 - b + b*|D|/avgdl))
with idf(q) = 0 for q outside the vocabulary and f the term frequency.
-/

/-- Number of corpus documents containing the word w (nd in rank_bm25). -/
def docFreq (corpus : List (List (List Char))) (w : List Char) : ℕ :=
  (corpus.filter (fun d => decide (w ∈ d))).length

/-- The corpus vocabulary, i.e. the keys of rank_bm25's nd map. -/
def vocab (corpus : List (List (List Char))) : List (List Char) :=
  corpus.flatten.dedup

/-- Raw Okapi idf before the negative-value flooring. -/
noncomputable def idfRaw (corpus : List (List (List Char))) (w : List Char) : ℝ :=
  Real.log ((corpus.length : ℝ) - (docFreq corpus w : ℝ) + 1 / 2)
    - Real.log ((docFreq corpus w : ℝ) + 1 / 2)

/-- average_idf over the distinct corpus words. -/
noncomputable def averageIdf (corpus : List (List (List Char))) : ℝ :=
  ((vocab corpus).map (idfRaw corpus)).sum / ((vocab corpus).length : ℝ)

/-- idf after flooring negatives to epsilon * average_idf. -/
noncomputable def idfFloored (corpus : List (List (List Char))) (w : List Char) : ℝ :=
  if idfRaw corpus w < 0 then (1 / 4) * averageIdf corpus else idfRaw corpus w

/-- self.idf.get(q) or 0 in get_scores: 0 for out-of-vocabulary words. -/
noncomputable def idfOf (corpus : List (List (List Char))) (w : List Char) : ℝ :=
  if w ∈ vocab corpus then idfFloored corpus w else 0

/-- Average document length (avgdl). -/
noncomputable def avgdl (corpus : List (List (List Char))) : ℝ :=
  ((corpus.map List.length).sum : ℝ) / (corpus.length : ℝ)

/-- Contribution of one query token to one document's score. -/
noncomputable def termScore (corpus : List (List (List Char)))
    (d : List (List Char)) (t : List Char) : ℝ :=
  idfOf corpus t * ((d.count t : ℝ) * (3 / 2 + 1))
    / ((d.count t : ℝ) + 3 / 2 * (1 - 3 / 4 + 3 / 4 * (d.length : ℝ) / avgdl corpus))

/-- BM25Okapi.get_scores for one document of the corpus. -/
noncomputable def bm25ScoreDoc (corpus : List (List (List Char)))
    (q : List (List Char)) (d : List (List Char)) : ℝ :=
  (q.map (termScore corpus d)).sum

/-- The score list the Retriever zips back onto its papers. -/
noncomputable def bm25Scores (corpus : List (List (List Char)))
    (q : List (List Char)) : List ℝ :=
  corpus.map (bm25ScoreDoc corpus q)

/-! ## Retriever.search (retriever.py lines 60-145)

The source manager is an oracle: source name and query to the list of
candidate dicts it returns.  The embedding-based third dedup pass is
off (embedding_client is None), which is the configuration all claims
address.  Python's stable in-place sort with reverse=True is modelled
by mergeSort with the reflexive "greater or equal score" comparator
(equal scores keep discovery order, as in CPython).  Python's score
assignment mutates shared dicts, so after the final re-scoring the
papers inside earlier sub-query buckets show the final scores; no claim
observes a bucket's score field, and the model assigns scores
functionally instead. -/

/-- Result shape of Retriever.search. -/
structure SearchResult where
  sub_query : List (String × List SPaper)
  original_query : List SPaper

/-- paper["score_bm25"] = score. -/
def setScore (p : SPaper) (s : ℝ) : SPaper :=
  { p with score_bm25 := some s }

/-- papers.sort(key score_bm25 default 0.0, reverse=True), a stable
descending sort. -/
noncomputable def sortByScore (l : List SPaper) : List SPaper :=
  l.mergeSort (fun a b => decide ((b.score_bm25.getD 0) ≤ (a.score_bm25.getD 0)))

/-- Score a deduplicated pool against a query and sort it descending
(retriever.py lines 104-115 and 130-142). -/
noncomputable def scoreAndSort (papers : List SPaper) (query : String) : List SPaper :=
  let corpus := papers.map docTokens
  let scores := bm25Scores corpus (pyTokens query)
  sortByScore (List.zipWith setScore papers scores)

/-- One iteration of the per-sub-query loop (lines 88-118): fetch from
every requested source, dedup by url then title, skip the sub-query if
nothing is left, else score, sort, extend the merged pool and record
the bucket. -/
noncomputable def searchStep (srcOracle : String → String → Nat → List SPaper)
    (srcs : List String) (top_k : Nat)
    (acc : List SPaper × List (String × List SPaper)) (query : String) :
    List SPaper × List (String × List SPaper) :=
  let fetched := (srcs.map (fun s => srcOracle s query top_k)).flatten
  let deduped := dedup keyTitle (dedup keyUrl fetched)
  if deduped.isEmpty then acc
  else
    let sorted := scoreAndSort deduped query
    (acc.1 ++ sorted, dictInsert query sorted acc.2)

/-- Retriever.search with embedding_client = None. -/
noncomputable def search (srcOracle : String → String → Nat → List SPaper)
    (original_query : String) (queries : List String) (top_k : Nat)
    (sources : Option (List String)) : SearchResult :=
  let srcs := sources.getD ["arxiv", "semantic_scholar"]
  let acc := queries.foldl (searchStep srcOracle srcs top_k) ([], [])
  let final := dedup keyTitle (dedup keyUrl acc.1)
  if final.isEmpty then { sub_query := acc.2, original_query := [] }
  else { sub_query := acc.2, original_query := scoreAndSort final original_query }

/-! ## PDF management model

src/pdf_management/{parser,cache_manager,downloader,pdf_processor}.py.
The cache directory is the constructor default "./cache/pdfs", shared
by CacheManager and PDFDownloader inside PDFProcessor.  Timestamps
(datetime.now().isoformat()) are integers in seconds; the ISO strings
compare chronologically, as the integers do.  The md5-prefix content
key, the file-content hash, the HTTP fetch, and the PDF parsing steps
are oracles in an environment record. -/

/-- parser.py ExtractedInfo dataclass. -/
structure ExtractedInfo where
  einfo_title : Option String := none
  authors : List String := []
  einfo_abstract : Option String := none
  objectives : Option String := none
  methodology : Option String := none
  datasets : Option String := none
  models : Option String := none
  evaluation : Option String := none
  results : Option String := none
  contributions : Option String := none
  limitations : Option String := none
deriving DecidableEq

/-- A Python value holding extraction results: either the ExtractedInfo
dataclass object itself, or its field dict as produced by
PDFProcessor._convert_to_dict (the form persisted into the cache). -/
inductive EIVal where
  | obj (i : ExtractedInfo)
  | asDict (i : ExtractedInfo)
deriving DecidableEq

/-- PDFProcessor._convert_to_dict on the ExtractedInfo dataclass. -/
def convertToDict (i : ExtractedInfo) : EIVal := EIVal.asDict i

/-- The free-form metadata dict of a cache entry; the processor stores
the keys extracted_info, citations, page_count, extracted_sections.
Absent keys are `none`. -/
structure MetaPayload where
  extracted_info : Option EIVal := none
  citations : Option (List String) := none
  page_count : Option Nat := none
  extracted_sections : Option Nat := none
deriving DecidableEq

/-- Python dict truthiness for the payload: an empty dict is falsy. -/
def MetaPayload.isEmptyDict (m : MetaPayload) : Bool :=
  m.extracted_info.isNone && m.citations.isNone && m.page_count.isNone
    && m.extracted_sections.isNone

/-- dict.update: keys present in the update overwrite, others persist. -/
def MetaPayload.updateWith (old new : MetaPayload) : MetaPayload where
  extracted_info := new.extracted_info.orElse (fun _ => old.extracted_info)
  citations := new.citations.orElse (fun _ => old.citations)
  page_count := new.page_count.orElse (fun _ => old.page_count)
  extracted_sections := new.extracted_sections.orElse (fun _ => old.extracted_sections)

/-- cache_manager.py CacheMetadata (lines 12-56). -/
structure CacheMetadata where
  paper_id : String
  url : String
  file_path : String
  downloaded_date : Int
  file_size : Nat
  file_hash : String
  version : Nat
  status : String
  extraction_date : Option Int
  meta : MetaPayload
deriving DecidableEq

/-- CacheMetadata.to_dict: every field is serialised. -/
structure MetaDict where
  d_paper_id : String
  d_url : String
  d_file_path : String
  d_downloaded_date : Int
  d_file_size : Nat
  d_file_hash : String
  d_version : Nat
  d_status : String
  d_extraction_date : Option Int
  d_meta : MetaPayload
deriving DecidableEq

/-- CacheMetadata.to_dict (lines 27-40). -/
def toDict (m : CacheMetadata) : MetaDict where
  d_paper_id := m.paper_id
  d_url := m.url
  d_file_path := m.file_path
  d_downloaded_date := m.downloaded_date
  d_file_size := m.file_size
  d_file_hash := m.file_hash
  d_version := m.version
  d_status := m.status
  d_extraction_date := m.extraction_date
  d_meta := m.meta

/-- CacheMetadata.from_dict (lines 42-56).  The constructor stamps
downloaded_date with datetime.now() of the load, and from_dict never
restores the stored date, so `loadNow` replaces it. -/
def fromDict (loadNow : Int) (d : MetaDict) : CacheMetadata where
  paper_id := d.d_paper_id
  url := d.d_url
  file_path := d.d_file_path
  downloaded_date := loadNow
  file_size := d.d_file_size
  file_hash := d.d_file_hash
  version := d.d_version
  status := d.d_status
  extraction_date := d.d_extraction_date
  meta := d.d_meta

/-- The world state threaded through the pipeline: the CacheManager's
in-memory index, the on-disk artifact files (path to size in bytes),
the persisted metadata.json content, and ghost counters for the
network requests made, the backoff sleeps performed (seconds), and the
parser invocations. -/
structure PState where
  cache : List (String × CacheMetadata)
  files : List (String × Nat)
  metadataFile : Option (List (String × MetaDict))
  netCount : Nat
  sleeps : List Nat
  parseCount : Nat
deriving DecidableEq

/-- The empty world: fresh directory, nothing cached. -/
def emptyState : PState where
  cache := []
  files := []
  metadataFile := none
  netCount := 0
  sleeps := []
  parseCount := 0

/-- External effects: hash8 is hashlib.md5(url).hexdigest()[:8];
fileHash is CacheManager._calculate_file_hash; fetch maps the index of
a network request to its outcome (bytes successfully streamed to disk,
or a PDFDownloadError message covering both request failures and the
content-type/magic-byte validation failure); the remaining fields are
the PDFParser steps (sections kept opaque as strings). -/
structure Env where
  hash8 : String → String
  fileHash : String → String
  fetch : Nat → Except String Nat
  extractText : String → List String
  sectionsOf : List String → List String
  keyInfo : String → List String → ExtractedInfo
  citationsOf : List String → List String

/-- The constructor-default cache directory of PDFProcessor. -/
def cacheDir : String := "./cache/pdfs"

/-- CacheManager.get_cache_path (lines 100-102). -/
def getCachePath (paper_id : String) : String :=
  cacheDir ++ "/" ++ paper_id ++ ".pdf"

/-- PDFDownloader._generate_output_path (lines 238-245). -/
def genOutputPath (env : Env) (url : String) : String :=
  cacheDir ++ "/paper_" ++ env.hash8 url ++ ".pdf"

/-- CacheManager.has_cached_pdf (lines 104-109): key in the in-memory
index and the file at get_cache_path exists. -/
def hasCachedPdf (st : PState) (paper_id : String) : Bool :=
  (dictLookup paper_id st.cache).isSome
    && (dictLookup (getCachePath paper_id) st.files).isSome

/-- CacheManager._save_metadata: whole-file rewrite of the index. -/
def saveMetadata (st : PState) : PState :=
  { st with metadataFile := some (dictMapVal toDict st.cache) }

/-- Constructing a CacheManager over an existing directory:
_load_metadata parses metadata.json into the in-memory index (an
unreadable or absent file yields an empty index). -/
def loadCache (loadNow : Int) (st : PState) : List (String × CacheMetadata) :=
  dictMapVal (fromDict loadNow) (st.metadataFile.getD [])

/-- CacheManager.register_pdf (lines 111-140). -/
def registerPdf (env : Env) (now : Int) (paper_id url file_path : String)
    (file_size : Nat) (st : PState) : CacheMetadata × PState :=
  let m : CacheMetadata :=
    { paper_id := paper_id
      url := url
      file_path := file_path
      downloaded_date := now
      file_size := file_size
      file_hash := if (dictLookup file_path st.files).isSome
        then env.fileHash file_path else ""
      version := 1
      status := "cached"
      extraction_date := none
      meta := {} }
  (m, saveMetadata { st with cache := dictInsert paper_id m st.cache })

/-- The field updates inside CacheManager.update_metadata (lines
154-162); each field is applied only when the Python argument is
truthy (a non-empty status string, a non-empty dict, a non-empty date
string). -/
def applyUpdate (m : CacheMetadata) (status : Option String)
    (payload : Option MetaPayload) (extraction_date : Option Int) : CacheMetadata :=
  let m1 := match status with
    | some s => if s ≠ "" then { m with status := s } else m
    | none => m
  let m2 := match payload with
    | some p => if p.isEmptyDict then m1
        else { m1 with meta := m1.meta.updateWith p }
    | none => m1
  match extraction_date with
  | some d => { m2 with extraction_date := some d }
  | none => m2

/-- CacheManager.update_metadata (lines 146-164): a no-op on unknown
keys, else the in-place field update followed by a save. -/
def updateMetadata (paper_id : String) (status : Option String)
    (payload : Option MetaPayload) (extraction_date : Option Int)
    (st : PState) : PState :=
  match dictLookup paper_id st.cache with
  | none => st
  | some m =>
    saveMetadata { st with
      cache := dictInsert paper_id (applyUpdate m status payload extraction_date) st.cache }

theorem dictLookup_updateMetadata_found {paper_id : String} {st : PState}
    {m : CacheMetadata} (h : dictLookup paper_id st.cache = some m)
    (status : Option String) (payload : Option MetaPayload) (ed : Option Int) :
    dictLookup paper_id (updateMetadata paper_id status payload ed st).cache
      = some (applyUpdate m status payload ed) := by
  simp only [updateMetadata, h, saveMetadata]
  exact dictLookup_insert_self paper_id _ st.cache

/-- CacheManager.delete_cached_pdf (lines 225-237): unlink the file at
get_cache_path when present, then drop the index row and persist. -/
def deleteCachedPdf (paper_id : String) (st : PState) : PState :=
  let st1 := { st with files := dictErase (getCachePath paper_id) st.files }
  if (dictLookup paper_id st1.cache).isSome then
    saveMetadata { st1 with cache := dictErase paper_id st1.cache }
  else st1

/-- CacheManager.get_cache_stats (lines 170-190). -/
structure CacheStats where
  total_papers : Nat
  cached_papers : Nat
  extracted_papers : Nat
  total_size_mb : ℚ

/-- get_cache_stats: totals over the index, with file sizes taken from
the paths get_cache_path reports. -/
def getCacheStats (st : PState) : CacheStats :=
  let present := st.cache.filter
    (fun e => (dictLookup (getCachePath e.1) st.files).isSome)
  { total_papers := st.cache.length
    cached_papers := present.length
    extracted_papers := (present.filter (fun e => decide (e.2.status = "extracted"))).length
    total_size_mb :=
      ((present.map (fun e => (dictLookup (getCachePath e.1) st.files).getD 0)).sum : ℚ)
        / (1024 * 1024) }

/-- One day of the timedelta comparison, in the seconds timestamps use. -/
def secondsPerDay : Int := 86400

/-- The age test of cleanup (lines 206-211): age strictly above
max_age_days days. -/
def isExpired (now : Int) (max_age_days : Int) (m : CacheMetadata) : Bool :=
  decide (now - m.downloaded_date > max_age_days * secondsPerDay)

/-- The age-based candidate selection of cleanup (lines 205-211). -/
def cleanupCandidates (now : Int) (max_age_days : Int) (st : PState) : List String :=
  (st.cache.filter (fun e => isExpired now max_age_days e.2)).map Prod.fst

/-- The size check of cleanup (lines 213-219): when the cache is over
max_size_mb and there are candidates, the candidate list is sorted
oldest-first; nothing is ever added to or removed from it. -/
def cleanupOrdered (now : Int) (max_age_days : Int) (max_size_mb : ℚ)
    (st : PState) : List String :=
  let toDelete := cleanupCandidates now max_age_days st
  if (getCacheStats st).total_size_mb > max_size_mb ∧ toDelete ≠ [] then
    toDelete.mergeSort (fun a b =>
      decide (((dictLookup a st.cache).map (·.downloaded_date)).getD 0
        ≤ ((dictLookup b st.cache).map (·.downloaded_date)).getD 0))
  else toDelete

/-- CacheManager.cleanup (lines 192-223): delete every candidate. -/
def cleanup (now : Int) (max_age_days : Int) (max_size_mb : ℚ) (st : PState) : PState :=
  (cleanupOrdered now max_age_days max_size_mb st).foldl
    (fun s k => deleteCachedPdf k s) st

/-! ## Downloader (src/pdf_management/downloader.py) -/

/-- Result dict of PDFDownloader.download_paper (lines 61-121). -/
structure DLResult where
  dl_success : Bool
  dl_url : String
  dl_file_path : Option String
  dl_file_size : Nat
  dl_error : Option String
deriving DecidableEq

/-- The constructor-default max_retries. -/
def maxRetries : Nat := 3

/-- The retry loop of download_paper (lines 103-121).  Each attempt
consumes one network request (counted in netCount).  A successful
attempt streams the body to output_path and reports
os.path.getsize(output_path); a PDFDownloadError (request failure or
content validation failure) is followed by a 2^attempt-second backoff
sleep unless it was the last attempt. -/
def downloadLoop (env : Env) (url output_path : String) (lastErr : Option String) :
    Nat → Nat → PState → DLResult × PState
  | 0, _, st =>
    ({ dl_success := false, dl_url := url, dl_file_path := none,
       dl_file_size := 0, dl_error := lastErr }, st)
  | remaining + 1, attempt, st =>
    match env.fetch st.netCount with
    | .ok n =>
      ({ dl_success := true, dl_url := url, dl_file_path := some output_path,
         dl_file_size := n, dl_error := none },
       { st with
          netCount := st.netCount + 1
          files := dictInsert output_path n st.files })
    | .error e =>
      let st1 := { st with netCount := st.netCount + 1 }
      if attempt < maxRetries - 1 then
        downloadLoop env url output_path (some e) remaining (attempt + 1)
          { st1 with sleeps := st1.sleeps ++ [2 ^ attempt] }
      else
        downloadLoop env url output_path (some e) remaining (attempt + 1) st1

/-- PDFDownloader.download_paper.  A pre-existing destination file is
returned as an immediate success with its on-disk size and no network
request (lines 96-101). -/
def downloadPaper (env : Env) (url : String) (output_path : Option String)
    (st : PState) : DLResult × PState :=
  let path := output_path.getD (genOutputPath env url)
  match dictLookup path st.files with
  | some sz =>
    ({ dl_success := true, dl_url := url, dl_file_path := some path,
       dl_file_size := sz, dl_error := none }, st)
  | none => downloadLoop env url path none maxRetries 0 st

/-! ## Processor (src/pdf_management/pdf_processor.py) -/

/-- Result dict of PDFProcessor.process_paper (lines 32-173). -/
structure PResult where
  pr_success : Bool
  pr_paper_id : String
  pr_url : String
  pr_pdf_path : Option String
  pr_extracted_info : Option EIVal
  pr_citations : Option (List String)
  pr_error : Option String
deriving DecidableEq

/-- Steps 2-7 of process_paper (lines 92-163): download, register,
mark processing, parse (parseCount is the ghost counter of
parser.extract_text invocations), extract, mark extracted persisting
the dict-converted extraction as the entry's payload.  The success
result carries the ExtractedInfo object itself. -/
def processDownloadPhase (env : Env) (now : Int) (pid url : String)
    (st : PState) : PResult × PState :=
  let dlr := downloadPaper env url none st
  let dl := dlr.1
  let st1 := dlr.2
  if ¬dl.dl_success then
    ({ pr_success := false, pr_paper_id := pid, pr_url := url, pr_pdf_path := none,
       pr_extracted_info := none, pr_citations := none,
       pr_error := some ("download failed: " ++ dl.dl_error.getD "unknow issue") }, st1)
  else
    let pdf_path := dl.dl_file_path.getD ""
    let st2 := (registerPdf env now pid url pdf_path dl.dl_file_size st1).2
    let st3 := updateMetadata pid (some "processing") none none st2
    let pages := env.extractText pdf_path
    let st4 := { st3 with parseCount := st3.parseCount + 1 }
    if pages.isEmpty then
      ({ pr_success := false, pr_paper_id := pid, pr_url := url,
         pr_pdf_path := some pdf_path, pr_extracted_info := none,
         pr_citations := none, pr_error := some "can't parse PDF text" }, st4)
    else
      let sections := env.sectionsOf pages
      let info := env.keyInfo pdf_path sections
      let cits := env.citationsOf pages
      let st5 := updateMetadata pid (some "extracted")
        (some { extracted_info := some (convertToDict info)
                citations := some cits
                page_count := some pages.length
                extracted_sections := some sections.length })
        (some now) st4
      ({ pr_success := true, pr_paper_id := pid, pr_url := url,
         pr_pdf_path := some pdf_path, pr_extracted_info := some (EIVal.obj info),
         pr_citations := some cits, pr_error := none }, st5)

/-- PDFProcessor.process_paper; the paper dict is reduced to its
pdf_url entry (paper.get(urlkey, "") with the default urlkey).  The
content key is the md5-prefix hash of the url (lines 61-63); since the
md5 hex digest of any string is non-empty, the guard on line 65
reduces to the url check.  The cached fast path (lines 76-90) returns
the payload stored in the entry's metadata dict. -/
def processPaper (env : Env) (now : Int) (pdf_url : Option String)
    (force_reprocess : Bool) (st : PState) : PResult × PState :=
  let url := pdf_url.getD ""
  let pid := env.hash8 url
  if pid = "" ∨ url = "" then
    ({ pr_success := false, pr_paper_id := pid, pr_url := url, pr_pdf_path := none,
       pr_extracted_info := none, pr_citations := none,
       pr_error := some "missing paper_id or url" }, st)
  else
    let fast : Option PResult :=
      if ¬force_reprocess ∧ hasCachedPdf st pid then
        match dictLookup pid st.cache with
        | some m =>
          if m.status = "extracted" then
            some { pr_success := true, pr_paper_id := pid, pr_url := url,
                   pr_pdf_path := some (getCachePath pid),
                   pr_extracted_info := m.meta.extracted_info,
                   pr_citations := none, pr_error := none }
          else none
        | none => none
      else none
    match fast with
    | some r => (r, st)
    | none => processDownloadPhase env now pid url st

/-! ## Claims -/

/-- C7: for a download with no pre-existing destination file whose
fetch fails transiently on the first two attempts (request failure or
content-validation failure alike) and succeeds on the third,
download_paper with the default retry limit returns success with the
final byte count, after exactly two backoff sleeps of 2^attempt
seconds: 1 second after the first failure and 2 after the second. -/
theorem C7_download_retry_backoff (env : Env) (url : String) (st : PState)
    (n : Nat) (e1 e2 : String)
    (hfile : dictLookup (genOutputPath env url) st.files = none)
    (h0 : env.fetch st.netCount = Except.error e1)
    (h1 : env.fetch (st.netCount + 1) = Except.error e2)
    (h2 : env.fetch (st.netCount + 2) = Except.ok n) :
    (downloadPaper env url none st).1.dl_success = true ∧
    (downloadPaper env url none st).1.dl_file_size = n ∧
    (downloadPaper env url none st).2.sleeps = st.sleeps ++ [1, 2] ∧
    (downloadPaper env url none st).2.netCount = st.netCount + 3 := by
  have hstep : downloadPaper env url none st
      = downloadLoop env url (genOutputPath env url) none maxRetries 0 st := by
    simp [downloadPaper, hfile]
  rw [hstep]
  show _ ∧ _ ∧ _ ∧ _
  rw [show maxRetries = 3 from rfl]
  simp only [downloadLoop, h0, maxRetries]
  norm_num
  simp only [downloadLoop, h1]
  simp only [downloadLoop, h2]
  exact ⟨trivial, trivial, trivial, trivial⟩

/-- Fetch oracle failing twice then delivering 77 bytes. -/
def c7Env : Env where
  hash8 := fun _ => "abcd1234"
  fileHash := fun _ => ""
  fetch := fun i => if i = 2 then Except.ok 77 else Except.error "boom"
  extractText := fun _ => []
  sectionsOf := fun _ => []
  keyInfo := fun _ _ => {}
  citationsOf := fun _ => []

theorem C7_download_retry_backoff_witness :
    (downloadPaper c7Env "http://x/a.pdf" none emptyState).1.dl_success = true ∧
    (downloadPaper c7Env "http://x/a.pdf" none emptyState).1.dl_file_size = 77 ∧
    (downloadPaper c7Env "http://x/a.pdf" none emptyState).2.sleeps
      = emptyState.sleeps ++ [1, 2] ∧
    (downloadPaper c7Env "http://x/a.pdf" none emptyState).2.netCount
      = emptyState.netCount + 3 :=
  C7_download_retry_backoff c7Env "http://x/a.pdf" emptyState 77 "boom" "boom"
    rfl rfl rfl rfl

/-- C2 (amended): after instance A registers key k, a freshly
constructed CacheManager B over the same directory reports
has_cached_pdf(k) = true, provided the artifact file actually exists
at getCachePath k; register_pdf alone neither creates nor checks that
file, and has_cached_pdf demands it. -/
theorem C2_register_roundtrip_amended (env : Env) (now loadNow : Int)
    (k u p : String) (sz : Nat) (st : PState)
    (hfile : (dictLookup (getCachePath k) st.files).isSome = true) :
    hasCachedPdf
      { (registerPdf env now k u p sz st).2 with
        cache := loadCache loadNow (registerPdf env now k u p sz st).2 } k = true := by
  unfold hasCachedPdf
  rw [Bool.and_eq_true]
  constructor
  · show (dictLookup k (loadCache loadNow (registerPdf env now k u p sz st).2)).isSome = true
    unfold loadCache registerPdf saveMetadata
    simp only [Option.getD_some]
    rw [dictLookup_dictMapVal, dictLookup_dictMapVal, dictLookup_insert_self]
    rfl
  · exact hfile

/-- An environment with no interesting effects, for cache-only runs. -/
def cacheOnlyEnv : Env where
  hash8 := fun _ => "abcd1234"
  fileHash := fun _ => "deadbeef"
  fetch := fun _ => Except.error "offline"
  extractText := fun _ => []
  sectionsOf := fun _ => []
  keyInfo := fun _ _ => {}
  citationsOf := fun _ => []

/-- A directory that already holds the artifact at getCachePath "k". -/
def c2StateWithFile : PState :=
  { emptyState with files := [(getCachePath "k", 5)] }

theorem C2_register_roundtrip_amended_witness :
    hasCachedPdf
      { (registerPdf cacheOnlyEnv 0 "k" "u" (getCachePath "k") 5 c2StateWithFile).2 with
        cache := loadCache 3 (registerPdf cacheOnlyEnv 0 "k" "u" (getCachePath "k") 5
          c2StateWithFile).2 } "k" = true :=
  C2_register_roundtrip_amended cacheOnlyEnv 0 3 "k" "u" (getCachePath "k") 5
    c2StateWithFile (by decide)

/-- C2 counterexample: the key "k" is registered on instance A (with
the artifact living elsewhere, as the pipeline's downloader does), yet
a fresh instance B over the same directory reports
has_cached_pdf("k") = false, because no file exists at getCachePath
"k". -/
theorem C2_register_roundtrip_counterexample :
    hasCachedPdf
      { (registerPdf cacheOnlyEnv 0 "k" "u" "./cache/pdfs/paper_k.pdf" 5 emptyState).2 with
        cache := loadCache 3 (registerPdf cacheOnlyEnv 0 "k" "u"
          "./cache/pdfs/paper_k.pdf" 5 emptyState).2 } "k" = false := by
  decide

/-- C6 (amended): the CacheManager itself does not enforce the status
invariant (update_metadata installs any non-empty status string and
any payload, so backward moves and extracted-without-payload states
are reachable, as the counterexample shows); for the operation
sequence PDFProcessor.process_paper actually issues, the entry's
status advances cached, then processing, then extracted, and the
extracted entry carries a non-null extracted_info payload. -/
theorem C6_status_forward_for_processor_sequence (env : Env) (now d : Int)
    (k u p : String) (sz : Nat) (i : ExtractedInfo) (cits : List String)
    (pc sc : Nat) (st : PState) :
    ((dictLookup k ((registerPdf env now k u p sz st).2).cache).map (·.status)
        = some "cached")
    ∧ ((dictLookup k (updateMetadata k (some "processing") none none
          (registerPdf env now k u p sz st).2).cache).map (·.status)
        = some "processing")
    ∧ ((dictLookup k (updateMetadata k (some "extracted")
          (some { extracted_info := some (convertToDict i), citations := some cits,
                  page_count := some pc, extracted_sections := some sc })
          (some d)
          (updateMetadata k (some "processing") none none
            (registerPdf env now k u p sz st).2)).cache).map (·.status)
        = some "extracted")
    ∧ ((dictLookup k (updateMetadata k (some "extracted")
          (some { extracted_info := some (convertToDict i), citations := some cits,
                  page_count := some pc, extracted_sections := some sc })
          (some d)
          (updateMetadata k (some "processing") none none
            (registerPdf env now k u p sz st).2)).cache).map (·.meta.extracted_info)
        = some (some (convertToDict i))) := by
  have h1 : dictLookup k ((registerPdf env now k u p sz st).2).cache
      = some { paper_id := k, url := u, file_path := p, downloaded_date := now,
               file_size := sz,
               file_hash := if (dictLookup p st.files).isSome
                 then env.fileHash p else "",
               version := 1, status := "cached", extraction_date := none,
               meta := {} } := by
    unfold registerPdf saveMetadata
    exact dictLookup_insert_self k _ st.cache
  have h2 := dictLookup_updateMetadata_found h1 (some "processing") none none
  have h3 := dictLookup_updateMetadata_found h2 (some "extracted")
    (some { extracted_info := some (convertToDict i), citations := some cits,
            page_count := some pc, extracted_sections := some sc })
    (some d)
  refine ⟨by rw [h1]; rfl, by rw [h2]; rfl, by rw [h3]; rfl, by rw [h3]; rfl⟩

/-- C6 counterexample: two direct CacheManager calls produce an entry
whose status is "extracted" while its metadata payload holds no
extracted_info at all, violating the claimed invariant for arbitrary
operation sequences. -/
theorem C6_status_invariant_counterexample :
    ((dictLookup "k" (updateMetadata "k" (some "extracted") none none
        (registerPdf cacheOnlyEnv 0 "k" "u" "p.pdf" 5 emptyState).2).cache).map
          (·.status) = some "extracted")
    ∧ ((dictLookup "k" (updateMetadata "k" (some "extracted") none none
        (registerPdf cacheOnlyEnv 0 "k" "u" "p.pdf" 5 emptyState).2).cache).map
          (·.meta.extracted_info) = some none) := by
  decide

/-- Deterministic environment for the C1 scenario: every fetch
delivers 100 bytes, parsing and extraction are deterministic local
heuristics. -/
def c1Env : Env where
  hash8 := fun _ => "c1hash01"
  fileHash := fun _ => "deadbeef"
  fetch := fun _ => Except.ok 100
  extractText := fun _ => ["page one"]
  sectionsOf := fun _ => ["intro"]
  keyInfo := fun _ _ => {}
  citationsOf := fun _ => []

/-- First process_paper call on a fresh cache. -/
def c1Run1 : PResult × PState :=
  processPaper c1Env 0 (some "http://x/a.pdf") false emptyState

/-- Second process_paper call on the same paper, force_reprocess
false. -/
def c1Run2 : PResult × PState :=
  processPaper c1Env 1 (some "http://x/a.pdf") false c1Run1.2

/-- C1 (the code belies the claimed skip-to-cache behaviour): after a
first call that succeeds and leaves the entry with status "extracted",
has_cached_pdf is still false for the content key (the artifact was
written to paper_{key}.pdf while get_cache_path checks {key}.pdf), so
the second call never takes the extracted fast path: it re-invokes the
parser and the extractor (parseCount rises from 1 to 2) and returns a
freshly recomputed ExtractedInfo object instead of the cached payload;
only the downloader's pre-existing-file check keeps the network count
at 1. -/
theorem C1_second_call_not_served_from_cache :
    c1Run1.1.pr_success = true
    ∧ ((dictLookup "c1hash01" c1Run1.2.cache).map (·.status) = some "extracted")
    ∧ hasCachedPdf c1Run1.2 "c1hash01" = false
    ∧ c1Run1.2.netCount = 1
    ∧ c1Run1.2.parseCount = 1
    ∧ c1Run2.2.netCount = 1
    ∧ c1Run2.2.parseCount = 2
    ∧ c1Run2.1.pr_extracted_info = some (EIVal.obj {})
    ∧ ((dictLookup "c1hash01" c1Run1.2.cache).map (·.meta.extracted_info)
        = some (some (EIVal.asDict {}))) := by
  decide

/-- Environment for the C3 scenario. -/
def c3Env : Env where
  hash8 := fun _ => "c3hash99"
  fileHash := fun _ => "deadbeef"
  fetch := fun _ => Except.ok 100
  extractText := fun _ => ["page one"]
  sectionsOf := fun _ => ["intro"]
  keyInfo := fun _ _ => {}
  citationsOf := fun _ => []

/-- A full pipeline run over a fresh cache. -/
def c3Run : PResult × PState :=
  processPaper c3Env 0 (some "http://y/b.pdf") false emptyState

/-- C3 (the artifact is not stored at the claimed path): the pipeline
run registers the index row under the content key, but the downloaded
artifact sits at {cacheDir}/paper_{contentKey}.pdf, while nothing
exists at the {cacheDir}/{contentKey}.pdf location that
get_cache_path, has_cached_pdf and delete_cached_pdf use. -/
theorem C3_artifact_path_mismatch :
    c3Run.1.pr_success = true
    ∧ (dictLookup "c3hash99" c3Run.2.cache).isSome = true
    ∧ genOutputPath c3Env "http://y/b.pdf" = "./cache/pdfs/paper_c3hash99.pdf"
    ∧ dictLookup "./cache/pdfs/paper_c3hash99.pdf" c3Run.2.files = some 100
    ∧ getCachePath "c3hash99" = "./cache/pdfs/c3hash99.pdf"
    ∧ dictLookup (getCachePath "c3hash99") c3Run.2.files = none
    ∧ ((dictLookup "c3hash99" c3Run.2.cache).map (·.file_path)
        = some "./cache/pdfs/paper_c3hash99.pdf") := by
  decide

theorem dictErase_eq_of_lookup_none {α : Type} {k : String} {l : List (String × α)}
    (h : dictLookup k l = none) : dictErase k l = l := by
  induction l with
  | nil => rfl
  | cons e es ih =>
    rw [dictLookup] at h
    by_cases he : e.1 = k
    · rw [if_pos he] at h; cases h
    · rw [if_neg he] at h
      rw [dictErase, if_neg he, ih h]

theorem dictErase_eq_filter {α : Type} (k : String) (l : List (String × α)) :
    dictErase k l = l.filter (fun e => decide (e.1 ≠ k)) := by
  induction l with
  | nil => rfl
  | cons e es ih =>
    by_cases he : e.1 = k
    · simp [dictErase, he, List.filter, ih]
    · simp [dictErase, he, List.filter, ih]

theorem deleteCachedPdf_cache (k : String) (st : PState) :
    (deleteCachedPdf k st).cache = dictErase k st.cache := by
  unfold deleteCachedPdf
  cases hv : dictLookup k st.cache with
  | some v => simp [hv, saveMetadata]
  | none => simp [hv, saveMetadata, dictErase_eq_of_lookup_none hv]

theorem deleteCachedPdf_files (k : String) (st : PState) :
    (deleteCachedPdf k st).files = dictErase (getCachePath k) st.files := by
  unfold deleteCachedPdf
  cases hv : dictLookup k st.cache with
  | some v => simp [hv, saveMetadata]
  | none => simp [hv, saveMetadata]

theorem foldDelete_cache (D : List String) (st : PState) :
    ((D.foldl (fun s k => deleteCachedPdf k s) st)).cache
      = st.cache.filter (fun e => decide (e.1 ∉ D)) := by
  induction D generalizing st with
  | nil => simp
  | cons d ds ih =>
    rw [List.foldl_cons, ih, deleteCachedPdf_cache, dictErase_eq_filter,
      List.filter_filter]
    apply List.filter_congr
    intro e _
    by_cases h1 : e.1 = d <;> by_cases h2 : e.1 ∈ ds <;>
      simp [h1, h2, List.mem_cons]

theorem foldDelete_files_none (D : List String) (st : PState) (p : String)
    (h : dictLookup p st.files = none) :
    dictLookup p ((D.foldl (fun s k => deleteCachedPdf k s) st)).files = none := by
  induction D generalizing st with
  | nil => exact h
  | cons d ds ih =>
    rw [List.foldl_cons]
    exact ih _ (by rw [deleteCachedPdf_files]; exact dictLookup_none_erase _ _ _ h)

theorem foldDelete_files_deleted (D : List String) (k : String) :
    ∀ st : PState, k ∈ D →
    dictLookup (getCachePath k) ((D.foldl (fun s k => deleteCachedPdf k s) st)).files
      = none := by
  induction D with
  | nil => intro st h; cases h
  | cons d ds ih =>
    intro st h
    rw [List.foldl_cons]
    rcases List.mem_cons.1 h with h1 | h1
    · subst h1
      exact foldDelete_files_none ds _ _
        (by rw [deleteCachedPdf_files]; exact dictLookup_erase_self _ _)
    · exact ih _ h1

theorem length_filter_not {α : Type} (p : α → Bool) (l : List α) :
    (l.filter (fun x => !p x)).length = l.length - (l.filter p).length := by
  induction l with
  | nil => rfl
  | cons x xs ih =>
    have hle : (xs.filter p).length ≤ xs.length := List.length_filter_le p xs
    by_cases h : p x = true
    · simp [List.filter_cons, h, ih]
    · rw [Bool.not_eq_true] at h
      simp [List.filter_cons, h, ih]
      omega

theorem mem_cleanupOrdered (now max_age_days : Int) (max_size_mb : ℚ) (st : PState)
    (k : String) :
    k ∈ cleanupOrdered now max_age_days max_size_mb st
      ↔ k ∈ cleanupCandidates now max_age_days st := by
  unfold cleanupOrdered
  by_cases h : (getCacheStats st).total_size_mb > max_size_mb
      ∧ cleanupCandidates now max_age_days st ≠ []
  · rw [if_pos h, List.mem_mergeSort]
  · rw [if_neg h]

theorem mem_cleanupCandidates (now max_age_days : Int) {st : PState}
    (hnd : (st.cache.map Prod.fst).Nodup) {k : String} {m : CacheMetadata}
    (hmem : (k, m) ∈ st.cache) :
    k ∈ cleanupCandidates now max_age_days st ↔ isExpired now max_age_days m = true := by
  unfold cleanupCandidates
  constructor
  · intro h
    obtain ⟨e, he, hek⟩ := List.mem_map.1 h
    obtain ⟨hecache, heexp⟩ := List.mem_filter.1 he
    have : e = (k, e.2) := by
      rw [← hek]
    rw [this] at hecache
    have := dict_key_unique hnd hecache hmem
    rw [← this]
    exact heexp
  · intro h
    exact List.mem_map.2 ⟨(k, m), List.mem_filter.2 ⟨hmem, h⟩, rfl⟩

/-- C4: for every cache state (with the dict's distinct keys) and all
parameters, cleanup deletes exactly the set of entries whose age
strictly exceeds max_age_days days: the surviving index rows are
precisely the non-expired ones, getStats' total-entry count drops by
exactly the number of expired entries, and every expired entry's
artifact (at the path the cache layout assigns it) is gone; entries
not older than the limit survive for every max_size_mb, i.e. no
size-based eviction ever occurs. -/
theorem C4_cleanup_age_only (now max_age_days : Int) (max_size_mb : ℚ) (st : PState)
    (hnd : (st.cache.map Prod.fst).Nodup) :
    (∀ k m, ((k, m) ∈ (cleanup now max_age_days max_size_mb st).cache
        ↔ (k, m) ∈ st.cache ∧ isExpired now max_age_days m = false))
    ∧ (getCacheStats (cleanup now max_age_days max_size_mb st)).total_papers
        = st.cache.length
          - (st.cache.filter (fun e => isExpired now max_age_days e.2)).length
    ∧ (∀ k m, (k, m) ∈ st.cache → isExpired now max_age_days m = true →
        dictLookup (getCachePath k) (cleanup now max_age_days max_size_mb st).files
          = none) := by
  refine ⟨?_, ?_, ?_⟩
  · intro k m
    unfold cleanup
    rw [foldDelete_cache, List.mem_filter]
    constructor
    · rintro ⟨h1, h2⟩
      refine ⟨h1, ?_⟩
      rw [decide_eq_true_iff, mem_cleanupOrdered,
        mem_cleanupCandidates now max_age_days hnd h1] at h2
      cases hexp : isExpired now max_age_days m with
      | false => rfl
      | true => exact absurd hexp h2
    · rintro ⟨h1, h2⟩
      refine ⟨h1, ?_⟩
      rw [decide_eq_true_iff, mem_cleanupOrdered,
        mem_cleanupCandidates now max_age_days hnd h1]
      rw [h2]
      exact Bool.false_ne_true
  · show ((cleanup now max_age_days max_size_mb st).cache).length = _
    unfold cleanup
    rw [foldDelete_cache]
    have hcongr : st.cache.filter
        (fun e => decide (e.1 ∉ cleanupOrdered now max_age_days max_size_mb st))
        = st.cache.filter (fun e => !(isExpired now max_age_days e.2)) := by
      apply List.filter_congr
      intro e he
      have hiff := (mem_cleanupOrdered now max_age_days max_size_mb st e.1).trans
        (mem_cleanupCandidates now max_age_days hnd (show (e.1, e.2) ∈ st.cache from he))
      cases hexp : isExpired now max_age_days e.2 with
      | false =>
        rw [hexp] at hiff
        simp only [Bool.not_false, decide_eq_true_iff]
        intro hmem
        exact Bool.false_ne_true (hiff.1 hmem)
      | true =>
        rw [hexp] at hiff
        simp only [Bool.not_true, decide_eq_false_iff_not]
        intro hmem
        exact hmem (hiff.2 rfl)
    rw [hcongr, length_filter_not]
  · intro k m hmem hexp
    unfold cleanup
    apply foldDelete_files_deleted
    rw [mem_cleanupOrdered, mem_cleanupCandidates now max_age_days hnd hmem]
    exact hexp

/-- A cache row dated dd with its artifact at the layout path. -/
def c4Entry (k : String) (dd : Int) : CacheMetadata where
  paper_id := k
  url := "u"
  file_path := getCachePath k
  downloaded_date := dd
  file_size := 3
  file_hash := ""
  version := 1
  status := "cached"
  extraction_date := none
  meta := {}

/-- Two entries, dated 40 and 10 days before now = 0. -/
def c4State : PState :=
  { emptyState with
    cache := [("old0", c4Entry "old0" (-40 * 86400)),
              ("new0", c4Entry "new0" (-10 * 86400))]
    files := [(getCachePath "old0", 3), (getCachePath "new0", 3)] }

theorem C4_cleanup_age_only_witness :
    (getCacheStats (cleanup 0 30 5000 c4State)).total_papers
      = c4State.cache.length
        - (c4State.cache.filter (fun e => isExpired 0 30 e.2)).length :=
  (C4_cleanup_age_only 0 30 5000 c4State (by decide)).2.1

/-- C5 (amended): after the Ranker's url pass followed by its title
pass, no two records share a url, no two share a title (as exact,
case-sensitive strings: the code performs no normalization), and every
record's url and title are present and non-empty.  The original
claim's case-folded comparison fails, see the counterexample. -/
theorem C5_dedup_pairwise_distinct (P : List SPaper) :
    ((dedup keyTitle (dedup keyUrl P)).Pairwise (fun a b => a.url ≠ b.url))
    ∧ ((dedup keyTitle (dedup keyUrl P)).Pairwise (fun a b => a.title ≠ b.title))
    ∧ (∀ p ∈ dedup keyTitle (dedup keyUrl P),
        (∃ v, p.url = some v ∧ v ≠ "") ∧ (∃ v, p.title = some v ∧ v ≠ "")) := by
  refine ⟨?_, dedup_pairwise_key_ne keyTitle _, ?_⟩
  · exact List.Pairwise.sublist (dedup_sublist keyTitle (dedup keyUrl P))
      (dedup_pairwise_key_ne keyUrl P)
  · intro p hp
    refine ⟨?_, mem_dedup_key_nonempty keyTitle hp⟩
    exact mem_dedup_key_nonempty keyUrl
      ((dedup_sublist keyTitle (dedup keyUrl P)).mem hp)

/-- Modelled from the spec's words: the "normalized (case-folded)
title" of a record; the code itself never normalizes titles. -/
def normalizedTitle (p : SPaper) : Option (List Char) :=
  p.title.map (fun t => t.data.map lowerChar)

/-- Two records with distinct urls whose titles differ only in case. -/
def c5pA : SPaper := { url := some "u1", title := some "Adam", abstract := none,
                       score_bm25 := none }

/-- The second record of the C5 counterexample. -/
def c5pB : SPaper := { url := some "u2", title := some "adam", abstract := none,
                       score_bm25 := none }

/-- C5 counterexample: both records survive the url pass and the title
pass (the dedup compares raw titles), yet their case-folded titles are
equal, so the pool does contain two records with equal normalized
title. -/
theorem C5_dedup_counterexample :
    dedup keyTitle (dedup keyUrl [c5pA, c5pB]) = [c5pA, c5pB]
    ∧ normalizedTitle c5pA = normalizedTitle c5pB
    ∧ c5pA ≠ c5pB := by
  refine ⟨rfl, by decide, ?_⟩
  intro h
  have := congrArg SPaper.url h
  simp [c5pA, c5pB] at this

theorem search_sub_query_eq (srcOracle : String → String → Nat → List SPaper)
    (oq : String) (queries : List String) (top_k : Nat)
    (sources : Option (List String)) :
    (search srcOracle oq queries top_k sources).sub_query
      = (queries.foldl
          (searchStep srcOracle (sources.getD ["arxiv", "semantic_scholar"]) top_k)
          ([], [])).2 := by
  simp only [search]
  split <;> rfl

theorem flatten_of_all_nil {α : Type} (srcs : List String)
    (f : String → List α) (h : ∀ s ∈ srcs, f s = []) :
    (srcs.map f).flatten = [] := by
  induction srcs with
  | nil => rfl
  | cons s ss ih =>
    rw [List.map_cons, List.flatten_cons, h s (List.mem_cons_self s ss),
      List.nil_append]
    exact ih (fun t ht => h t (List.mem_cons_of_mem s ht))

theorem foldl_searchStep_lookup_none
    (srcOracle : String → String → Nat → List SPaper) (srcs : List String)
    (top_k : Nat) (q : String)
    (hempty : ∀ s ∈ srcs, srcOracle s q top_k = []) :
    ∀ (queries : List String) (acc : List SPaper × List (String × List SPaper)),
    dictLookup q acc.2 = none →
    dictLookup q (queries.foldl (searchStep srcOracle srcs top_k) acc).2 = none := by
  intro queries
  induction queries with
  | nil => intro acc h; exact h
  | cons query rest ih =>
    intro acc h
    rw [List.foldl_cons]
    apply ih
    by_cases hq : query = q
    · subst hq
      unfold searchStep
      rw [flatten_of_all_nil srcs _ hempty]
      exact h
    · unfold searchStep
      by_cases hd : (dedup keyTitle (dedup keyUrl
          ((srcs.map (fun s => srcOracle s query top_k)).flatten))).isEmpty = true
      · rw [if_pos hd]; exact h
      · rw [if_neg hd]
        show dictLookup q (dictInsert query _ acc.2) = none
        rw [dictLookup_insert_ne query q _ acc.2 (fun hc => hq hc.symm)]
        exact h

/-- C9 (amended): a sub-query that yields zero candidates from every
requested source is silently skipped: the call still returns normally,
but the sub-query contributes no entry at all to the sub_query
mapping, i.e. its key is absent (lookup gives none), rather than being
mapped to an empty bucket as claimed. -/
theorem C9_empty_subquery_key_absent
    (srcOracle : String → String → Nat → List SPaper) (oq q : String)
    (queries : List String) (top_k : Nat) (sources : Option (List String))
    (hempty : ∀ s ∈ sources.getD ["arxiv", "semantic_scholar"],
      srcOracle s q top_k = []) :
    dictLookup q (search srcOracle oq queries top_k sources).sub_query = none := by
  rw [search_sub_query_eq]
  exact foldl_searchStep_lookup_none srcOracle _ top_k q hempty queries ([], []) rfl

/-- A source oracle that finds nothing for any query. -/
def c9Oracle : String → String → Nat → List SPaper := fun _ _ _ => []

theorem C9_empty_subquery_key_absent_witness :
    dictLookup "q1" (search c9Oracle "orig" ["q1", "q2"] 10 none).sub_query = none :=
  C9_empty_subquery_key_absent c9Oracle "orig" "q1" ["q1", "q2"] 10 none
    (fun _ _ => rfl)

/-- C9 counterexample: with one sub-query "q1" and sources that return
nothing, the call succeeds and returns an empty sub_query mapping: the
key "q1" is absent (the claim demands it be mapped to an empty
sequence, i.e. a lookup result of some []). -/
theorem C9_empty_subquery_counterexample :
    (search c9Oracle "orig" ["q1"] 10 none).sub_query = []
    ∧ dictLookup "q1" (search c9Oracle "orig" ["q1"] 10 none).sub_query ≠ some [] := by
  constructor
  · rfl
  · intro h
    rw [show (search c9Oracle "orig" ["q1"] 10 none).sub_query = [] from rfl] at h
    cases h

theorem mem_zipWith_setScore {l : List SPaper} {s : List ℝ} {p : SPaper}
    (h : p ∈ List.zipWith setScore l s) : ∃ a ∈ l, ∃ x, p = setScore a x := by
  induction l generalizing s with
  | nil => simp at h
  | cons a as ih =>
    cases s with
    | nil => simp at h
    | cons x xs =>
      rw [List.zipWith_cons_cons] at h
      rcases List.mem_cons.1 h with h1 | h1
      · exact ⟨a, List.mem_cons_self a as, x, h1⟩
      · obtain ⟨b, hb, y, hy⟩ := ih h1
        exact ⟨b, List.mem_cons_of_mem a hb, y, hy⟩

theorem mem_scoreAndSort_url {papers : List SPaper} {q : String} {p : SPaper}
    (h : p ∈ scoreAndSort papers q) : ∃ a ∈ papers, p.url = a.url := by
  unfold scoreAndSort sortByScore at h
  rw [List.mem_mergeSort] at h
  obtain ⟨a, ha, x, hx⟩ := mem_zipWith_setScore h
  exact ⟨a, ha, by rw [hx]; rfl⟩

theorem mem_dictInsert {α : Type} {k : String} {v : α} {l : List (String × α)}
    {e : String × α} (h : e ∈ dictInsert k v l) : e = (k, v) ∨ e ∈ l := by
  induction l with
  | nil => simpa [dictInsert] using h
  | cons f fs ih =>
    by_cases hf : f.1 = k
    · rw [dictInsert, if_pos hf] at h
      rcases List.mem_cons.1 h with h1 | h1
      · exact Or.inl h1
      · exact Or.inr (List.mem_cons_of_mem f h1)
    · rw [dictInsert, if_neg hf] at h
      rcases List.mem_cons.1 h with h1 | h1
      · exact Or.inr (h1 ▸ List.mem_cons_self f fs)
      · rcases ih h1 with h2 | h2
        · exact Or.inl h2
        · exact Or.inr (List.mem_cons_of_mem f h2)

/-- Records surviving the two dedup passes have a non-empty url. -/
theorem mem_double_dedup_url {l : List SPaper} {p : SPaper}
    (h : p ∈ dedup keyTitle (dedup keyUrl l)) : ∃ s, p.url = some s ∧ s ≠ "" :=
  mem_dedup_key_nonempty keyUrl ((dedup_sublist keyTitle (dedup keyUrl l)).mem h)

theorem foldl_searchStep_buckets_url
    (srcOracle : String → String → Nat → List SPaper) (srcs : List String)
    (top_k : Nat) :
    ∀ (queries : List String) (acc : List SPaper × List (String × List SPaper)),
    (∀ b ∈ acc.2, ∀ p ∈ b.2, ∃ s, p.url = some s ∧ s ≠ "") →
    ∀ b ∈ (queries.foldl (searchStep srcOracle srcs top_k) acc).2, ∀ p ∈ b.2,
      ∃ s, p.url = some s ∧ s ≠ "" := by
  intro queries
  induction queries with
  | nil => intro acc h; exact h
  | cons query rest ih =>
    intro acc h
    rw [List.foldl_cons]
    apply ih
    unfold searchStep
    by_cases hd : (dedup keyTitle (dedup keyUrl
        ((srcs.map (fun s => srcOracle s query top_k)).flatten))).isEmpty = true
    · rw [if_pos hd]; exact h
    · rw [if_neg hd]
      intro b hb p hp
      rcases mem_dictInsert hb with h1 | h1
      · subst h1
        obtain ⟨a, ha, hurl⟩ := mem_scoreAndSort_url hp
        obtain ⟨s, hs, hs'⟩ := mem_double_dedup_url ha
        exact ⟨s, by rw [hurl, hs], hs'⟩
      · exact h b h1 p hp

theorem search_original_query_url
    (srcOracle : String → String → Nat → List SPaper) (oq : String)
    (queries : List String) (top_k : Nat) (sources : Option (List String)) :
    ∀ p ∈ (search srcOracle oq queries top_k sources).original_query,
      ∃ s, p.url = some s ∧ s ≠ "" := by
  intro p hp
  simp only [search] at hp
  split at hp
  · cases hp
  · obtain ⟨a, ha, hurl⟩ := mem_scoreAndSort_url hp
    obtain ⟨s, hs, hs'⟩ := mem_double_dedup_url ha
    exact ⟨s, by rw [hurl, hs], hs'⟩

/-- C10: for every record list and dedup key getter, the dedup pass is
a subsequence of its input (original order) whose members all carry a
present, non-empty key; no two kept records share a key value; the
record kept for any non-empty value v is exactly the first record of
the input with that value (records with missing or empty keys are
dropped, never kept as unique); consequently Retriever.search never
returns a record with a missing or empty url, neither in the final
original_query ranking nor in any sub-query bucket. -/
theorem C10_dedup_first_occurrence (g : SPaper → Option String) (P : List SPaper)
    (v : String) (hv : v ≠ "") :
    (dedup g P).Sublist P
    ∧ (∀ p ∈ dedup g P, ∃ s, g p = some s ∧ s ≠ "")
    ∧ (dedup g P).Pairwise (fun a b => g a ≠ g b)
    ∧ (dedup g P).find? (fun p => decide (g p = some v))
        = P.find? (fun p => decide (g p = some v))
    ∧ (∀ (srcOracle : String → String → Nat → List SPaper) (oq : String)
        (queries : List String) (top_k : Nat) (sources : Option (List String)),
        (∀ p ∈ (search srcOracle oq queries top_k sources).original_query,
          ∃ s, p.url = some s ∧ s ≠ "")
        ∧ (∀ b ∈ (search srcOracle oq queries top_k sources).sub_query, ∀ p ∈ b.2,
          ∃ s, p.url = some s ∧ s ≠ "")) := by
  refine ⟨dedup_sublist g P, fun p hp => mem_dedup_key_nonempty g hp,
    dedup_pairwise_key_ne g P, dedup_find?_eq g hv P, ?_⟩
  intro srcOracle oq queries top_k sources
  refine ⟨search_original_query_url srcOracle oq queries top_k sources, ?_⟩
  intro b hb
  rw [search_sub_query_eq] at hb
  exact foldl_searchStep_buckets_url srcOracle _ top_k queries ([], [])
    (fun b hb => by cases hb) b hb

/-- A concrete pool with a duplicated url, an empty url and a missing
url. -/
def c10P : List SPaper :=
  [{ url := some "u", title := some "t1", abstract := none, score_bm25 := none },
   { url := some "", title := some "t2", abstract := none, score_bm25 := none },
   { url := none, title := some "t3", abstract := none, score_bm25 := none },
   { url := some "u", title := some "t4", abstract := none, score_bm25 := none }]

theorem C10_dedup_first_occurrence_witness :
    ("u" : String) ≠ ""
    ∧ (dedup keyUrl c10P).find? (fun p => decide (keyUrl p = some "u"))
        = c10P.find? (fun p => decide (keyUrl p = some "u")) :=
  ⟨by decide, (C10_dedup_first_occurrence keyUrl c10P "u" (by decide)).2.2.2.1⟩

theorem termScore_of_not_mem (corpus : List (List (List Char)))
    (d : List (List Char)) (t : List Char) (h : t ∉ d) :
    termScore corpus d t = 0 := by
  unfold termScore
  rw [List.count_eq_zero.2 h]
  simp

theorem bm25ScoreDoc_no_overlap (corpus : List (List (List Char)))
    (q d : List (List Char)) (h : ∀ t ∈ q, t ∉ d) :
    bm25ScoreDoc corpus q d = 0 := by
  unfold bm25ScoreDoc
  apply List.sum_eq_zero
  intro x hx
  obtain ⟨t, ht, rfl⟩ := List.mem_map.1 hx
  exact termScore_of_not_mem corpus d t (h t ht)

theorem avgdl_nonneg (corpus : List (List (List Char))) : 0 ≤ avgdl corpus := by
  unfold avgdl
  positivity

theorem idfRaw_pos (corpus : List (List (List Char))) (t : List Char)
    (h : 2 * docFreq corpus t < corpus.length) : 0 < idfRaw corpus t := by
  unfold idfRaw
  rw [sub_pos]
  apply Real.log_lt_log
  · positivity
  · have h' : (2 * docFreq corpus t : ℝ) < (corpus.length : ℝ) := by exact_mod_cast h
    push_cast at h'
    linarith

theorem idfOf_pos (corpus : List (List (List Char))) (t : List Char)
    (hv : t ∈ vocab corpus) (h : 2 * docFreq corpus t < corpus.length) :
    0 < idfOf corpus t := by
  unfold idfOf idfFloored
  rw [if_pos hv, if_neg (not_lt.2 (idfRaw_pos corpus t h).le)]
  exact idfRaw_pos corpus t h

theorem termScore_pos (corpus : List (List (List Char)))
    (d : List (List Char)) (t : List Char) (hd : t ∈ d) (hv : t ∈ vocab corpus)
    (h : 2 * docFreq corpus t < corpus.length) : 0 < termScore corpus d t := by
  unfold termScore
  have hc : 0 < (d.count t : ℝ) := by
    have := List.count_pos_iff.2 hd
    exact_mod_cast this
  have hdiv : 0 ≤ 3 / 4 * (d.length : ℝ) / avgdl corpus :=
    div_nonneg (by positivity) (avgdl_nonneg corpus)
  apply div_pos
  · exact mul_pos (idfOf_pos corpus t hv h) (by nlinarith)
  · nlinarith

theorem mem_vocab_of_mem (corpus : List (List (List Char))) {d : List (List Char)}
    {t : List Char} (hd : d ∈ corpus) (ht : t ∈ d) : t ∈ vocab corpus := by
  unfold vocab
  rw [List.mem_dedup]
  exact List.mem_flatten.2 ⟨d, hd, ht⟩

theorem bm25ScoreDoc_pos (corpus : List (List (List Char)))
    (q d : List (List Char)) (hq : q ≠ []) (hall : ∀ t ∈ q, t ∈ d)
    (hvv : ∀ t ∈ q, t ∈ vocab corpus)
    (hr : ∀ t ∈ q, 2 * docFreq corpus t < corpus.length) :
    0 < bm25ScoreDoc corpus q d := by
  unfold bm25ScoreDoc
  apply List.sum_pos
  · intro x hx
    obtain ⟨t, ht, rfl⟩ := List.mem_map.1 hx
    exact termScore_pos corpus d t (hall t ht) (hvv t ht) (hr t ht)
  · simpa using hq

theorem splitSpaces_ne_nil (cs : List Char) : splitSpaces cs ≠ [] := by
  cases cs with
  | nil => simp [splitSpaces]
  | cons c cs' =>
    cases h : splitSpaces cs' with
    | nil => simp [splitSpaces, h]
    | cons w ws =>
      by_cases hc : c = ' ' <;> simp [splitSpaces, h, hc]

theorem pyTokens_ne_nil (s : String) : pyTokens s ≠ [] :=
  splitSpaces_ne_nil _

/-- C8 (amended): if some record's title+abstract tokens include every
token of the query (in particular, when they exactly match the query's
tokens), some other record shares no token with the query, and every
query token occurs in fewer than half of the candidate documents, then
the BM25 score the Ranker assigns to the covering record is strictly
greater than the score of the token-disjoint record.  Without the
fewer-than-half condition BM25Okapi's idf can vanish and the two
scores can tie, see the counterexample. -/
theorem C8_exact_match_beats_disjoint_amended (papers : List SPaper) (q : String)
    (pi pj : SPaper) (hi : pi ∈ papers) (_hj : pj ∈ papers)
    (hmatch : ∀ t ∈ pyTokens q, t ∈ docTokens pi)
    (hnone : ∀ t ∈ pyTokens q, t ∉ docTokens pj)
    (hrare : ∀ t ∈ pyTokens q,
      2 * docFreq (papers.map docTokens) t < (papers.map docTokens).length) :
    bm25ScoreDoc (papers.map docTokens) (pyTokens q) (docTokens pj)
      < bm25ScoreDoc (papers.map docTokens) (pyTokens q) (docTokens pi) := by
  rw [bm25ScoreDoc_no_overlap (papers.map docTokens) (pyTokens q) (docTokens pj)
    hnone]
  apply bm25ScoreDoc_pos
  · exact pyTokens_ne_nil q
  · exact hmatch
  · intro t ht
    exact mem_vocab_of_mem _ (List.mem_map_of_mem docTokens hi) (hmatch t ht)
  · exact hrare

/-- The exactly-matching record of the C8 witness pool. -/
def c8p1 : SPaper := { url := some "w1", title := some "cat", abstract := some "x",
                       score_bm25 := none }

/-- A record sharing no token with the query. -/
def c8p2 : SPaper := { url := some "w2", title := some "dog", abstract := some "y",
                       score_bm25 := none }

/-- A third record keeping every query token below half the corpus. -/
def c8p3 : SPaper := { url := some "w3", title := some "bird", abstract := some "z",
                       score_bm25 := none }

theorem C8_exact_match_beats_disjoint_amended_witness :
    bm25ScoreDoc ([c8p1, c8p2, c8p3].map docTokens) (pyTokens "cat x")
        (docTokens c8p2)
      < bm25ScoreDoc ([c8p1, c8p2, c8p3].map docTokens) (pyTokens "cat x")
        (docTokens c8p1) :=
  C8_exact_match_beats_disjoint_amended [c8p1, c8p2, c8p3] "cat x" c8p1 c8p2
    (List.mem_cons_self _ _)
    (List.mem_cons_of_mem _ (List.mem_cons_self _ _))
    (by decide) (by decide) (by decide)

/-- The exactly-matching record of the C8 counterexample. -/
def c8xA : SPaper := { url := some "x1", title := some "a", abstract := some "a",
                       score_bm25 := none }

/-- The token-disjoint record of the C8 counterexample. -/
def c8xB : SPaper := { url := some "x2", title := some "b", abstract := some "c",
                       score_bm25 := none }

/-- The two-document corpus the Ranker builds from them. -/
def c8xC : List (List (List Char)) := [c8xA, c8xB].map docTokens

/-- C8 counterexample: with two candidates, one whose title+abstract
tokens exactly equal the query's tokens and one sharing no token with
the query, each query token occurs in exactly half the documents, its
Okapi idf is log(1.5/1.5) = 0, and both records score 0: the
exactly-matching record's score is not strictly greater. -/
theorem C8_exact_match_counterexample :
    docTokens c8xA = pyTokens "a a"
    ∧ docTokens c8xB = [['b'], ['c']]
    ∧ ¬ (bm25ScoreDoc c8xC (pyTokens "a a") (docTokens c8xB)
          < bm25ScoreDoc c8xC (pyTokens "a a") (docTokens c8xA)) := by
  refine ⟨by decide, by decide, ?_⟩
  have hB : bm25ScoreDoc c8xC (pyTokens "a a") (docTokens c8xB) = 0 :=
    bm25ScoreDoc_no_overlap _ _ _ (by decide)
  have hrawA : idfRaw c8xC ['a'] = 0 := by
    unfold idfRaw
    rw [show docFreq c8xC ['a'] = 1 from by decide,
      show c8xC.length = 2 from by decide]
    norm_num
  have hidf : idfOf c8xC ['a'] = 0 := by
    unfold idfOf idfFloored
    rw [if_pos (show ['a'] ∈ vocab c8xC from by decide), hrawA,
      if_neg (lt_irrefl (0 : ℝ))]
  have hterm : termScore c8xC (docTokens c8xA) ['a'] = 0 := by
    unfold termScore
    rw [hidf, zero_mul, zero_div]
  have hA : bm25ScoreDoc c8xC (pyTokens "a a") (docTokens c8xA) = 0 := by
    unfold bm25ScoreDoc
    rw [show pyTokens "a a" = [['a'], ['a']] from by decide]
    simp [hterm]
  rw [hA, hB]
  exact lt_irrefl 0
